import Mathlib

/-! Shallow embedding of `src/Txtreplacement.py`, a system-wide text expander:
the rolling input buffer, the suffix-match engine, dynamic-value resolution,
the replacement executor, the clipboard-based insertion, and the configuration
dialog's entry validation.  Python strings are embedded as `List Char`; the
insertion-ordered Python dict `self.replacements` is embedded as an association
list in insertion order (Python dicts iterate in insertion order). -/

namespace Txtreplacement

/-- Python strings are embedded as lists of characters. -/
abbrev PyStr := List Char

/-- `self.max_buffer_length = 50` (line 32). -/
def max_buffer_length : Nat := 50

/-- Lines 73-77 of `on_press`: `self.buffer += key.char`, then
`self.buffer = self.buffer[-self.max_buffer_length:]` when the length exceeds
the capacity.  A Python slice `s[-n:]` keeps the last `min n (len s)`
characters, i.e. drops `len s - n` characters from the front. -/
def buffer_append (buf : PyStr) (c : Char) : PyStr :=
  let b := buf ++ [c]
  if b.length > max_buffer_length then b.drop (b.length - max_buffer_length) else b

/-- Lines 87-89 of `on_press`: on backspace, `if self.buffer:
self.buffer = self.buffer[:-1]` (drop the last character of a non-empty buffer). -/
def trim_one (buf : PyStr) : PyStr :=
  if buf = [] then buf else buf.dropLast

/-- Lines 91-97, `TextReplacer.check_replacements`: iterate the
insertion-ordered replacement dict; on the first entry whose shortcut satisfies
`self.buffer.endswith(shortcut)`, call `perform_replacement` and `break`.
The embedding returns the entry fired, if any.  Note that Python's
`s.endswith("")` is `True`, matching `[] <:+ buf` here. -/
def check_replacements (buf : PyStr) : List (PyStr × PyStr) → Option (PyStr × PyStr)
  | [] => none
  | e :: rest => if e.1 <:+ buf then some e else check_replacements buf rest

/-- The values `datetime.now().strftime("%Y-%m-%d")` and
`datetime.now().strftime("%H:%M:%S")` observed at one instant.  Wall-clock time
is an ambient input of the Python process, so it is passed as a parameter. -/
structure Clock where
  date : PyStr
  time : PyStr

/-- Lines 102-106 of `perform_replacement`: the `"today"` and `"time"`
shortcuts recompute their replacement text from the clock at fire time;
every other shortcut uses the stored replacement string. -/
def resolve_replacement (clk : Clock) (shortcut replacement : PyStr) : PyStr :=
  if shortcut = "today".data then clk.date
  else if shortcut = "time".data then clk.time
  else replacement

/-- Platform injection actions emitted by the replacement executor: one
backspace down+up pulse (lines 113-114), or the insertion of a text via
`type_text` (line 118). -/
inductive Action where
  | backspacePulse : Action
  | insert : PyStr → Action
deriving DecidableEq

/-- Lines 112-115: `for _ in range(len(shortcut))`, one backspace down+up pulse
per iteration. -/
def send_backspaces : Nat → List Action
  | 0 => []
  | n + 1 => Action.backspacePulse :: send_backspaces n

/-- Lines 99-121, `TextReplacer.perform_replacement`: resolve dynamic values
(lines 103-106), clear the buffer (`self.buffer = ""`, line 109) before any
platform call, then emit `len(shortcut)` backspace pulses followed by the
insertion of the resolved text.  The whole body is wrapped in `try/except`
whose handler only prints; `failAt = some k` models a platform-injection call
raising after `k` actions were emitted, truncating the action sequence.
Nothing after line 109 writes the buffer, so the returned buffer is `[]` on
every path.  Returns (new buffer, actions emitted). -/
def perform_replacement (clk : Clock) (failAt : Option Nat)
    (shortcut replacement : PyStr) : PyStr × List Action :=
  let resolved := resolve_replacement clk shortcut replacement
  let newBuf : PyStr := []
  let actions := send_backspaces shortcut.length ++ [Action.insert resolved]
  match failAt with
  | none => (newBuf, actions)
  | some k => (newBuf, actions.take k)

/-- Lines 123-154, `TextReplacer.type_text`: capture the prior clipboard
content (`old_clipboard = pyperclip.paste()` inside its own `try`, so a failed
read leaves `old_clipboard = ""`), overwrite the clipboard with `text`
(`pyperclip.copy(text)`), send Ctrl+V — which pastes the clipboard's current
content — then a detached daemon thread restores the prior content after a
delay, swallowing any failure of the restore (`try ... except: pass`).
Returns (text actually pasted, clipboard content after the restore step ran,
sequence of clipboard writes in order). -/
def type_text (readFails restoreFails : Bool) (text clipboard0 : PyStr) :
    PyStr × PyStr × List PyStr :=
  let old_clipboard := if readFails then [] else clipboard0
  let clipboardAfterCopy := text
  let pasted := clipboardAfterCopy
  if restoreFails then (pasted, clipboardAfterCopy, [clipboardAfterCopy])
  else (pasted, old_clipboard, [clipboardAfterCopy, old_clipboard])

/-- The classified key events the pynput listener delivers to `on_press`:
a key with a truthy `char` attribute (printable character), the special keys
handled in the `except AttributeError` branch (space, enter, tab, backspace),
or any other key (modifiers, navigation). -/
inductive KeyEvent where
  | char : Char → KeyEvent
  | space : KeyEvent
  | enter : KeyEvent
  | tab : KeyEvent
  | backspace : KeyEvent
  | other : KeyEvent

/-- Lines 68-89, `TextReplacer.on_press`, as a transition on the buffer, also
returning the entry fired by `check_replacements` (if any).  Printable
character: append-and-trim, then run the match engine; on a hit
`perform_replacement` leaves the buffer cleared.  Space, enter or tab: run the
match engine on the current buffer, then `self.buffer = ""` unconditionally
(line 86).  Backspace: drop the last character of a non-empty buffer.  Other
keys leave the buffer untouched and run no match check. -/
def on_press (clk : Clock) (replacements : List (PyStr × PyStr))
    (buf : PyStr) (k : KeyEvent) : PyStr × Option (PyStr × PyStr) :=
  match k with
  | KeyEvent.char c =>
    let b := buffer_append buf c
    match check_replacements b replacements with
    | some e => ((perform_replacement clk none e.1 e.2).1, some e)
    | none => (b, none)
  | KeyEvent.space => ([], check_replacements buf replacements)
  | KeyEvent.enter => ([], check_replacements buf replacements)
  | KeyEvent.tab => ([], check_replacements buf replacements)
  | KeyEvent.backspace => (trim_one buf, none)
  | KeyEvent.other => (buf, none)

/-- Folding `on_press` over a stream of key events: the buffer state after the
listener has processed `ks` starting from `buf`. -/
def process_events (clk : Clock) (replacements : List (PyStr × PyStr))
    (buf : PyStr) (ks : List KeyEvent) : PyStr :=
  ks.foldl (fun b k => (on_press clk replacements b k).1) buf

/-- Python `str.strip()`: remove leading and trailing whitespace. -/
def py_strip (s : PyStr) : PyStr :=
  ((s.dropWhile Char.isWhitespace).reverse.dropWhile Char.isWhitespace).reverse

/-- The outcome of one `ReplacementDialog.ok_clicked` invocation
(lines 467-480): either a warning box is shown and `self.result` stays unset,
or `self.result` is set to the stripped (shortcut, replacement) pair and the
dialog closes. -/
inductive DialogOutcome where
  | warned : PyStr → DialogOutcome
  | accepted : PyStr → PyStr → DialogOutcome
deriving DecidableEq

/-- Lines 467-480, `ReplacementDialog.ok_clicked`: strip both fields; an empty
stripped shortcut (or empty stripped replacement) shows a warning and returns
without setting `self.result`. -/
def ok_clicked (shortcutField replacementField : PyStr) : DialogOutcome :=
  let shortcut := py_strip shortcutField
  let replacement := py_strip replacementField
  if shortcut = [] then DialogOutcome.warned "Shortcut cannot be empty.".data
  else if replacement = [] then
    DialogOutcome.warned "Replacement text cannot be empty.".data
  else DialogOutcome.accepted shortcut replacement

/-- `dialog.result` as read by the GUI after the dialog closes: set only by an
accepting `ok_clicked` (line 479); otherwise it remains `None` (line 414). -/
def dialog_result : DialogOutcome → Option (PyStr × PyStr)
  | DialogOutcome.warned _ => none
  | DialogOutcome.accepted s r => some (s, r)

/-- The assignment `self.replacer.replacements[shortcut] = replacement` on
Python's insertion-ordered dict: an existing key is overwritten in place
(keeping its position in iteration order), a new key is appended at the end. -/
def dict_set (table : List (PyStr × PyStr)) (k v : PyStr) :
    List (PyStr × PyStr) :=
  if table.any (fun e => decide (e.1 = k)) then
    table.map (fun e => if e.1 = k then (k, v) else e)
  else table ++ [(k, v)]

/-- Lines 334-345, `TextReplacerGUI.add_replacement`: if the dialog produced no
result, nothing happens; if the result's shortcut already exists, a
confirmation box is shown and a "no" answer aborts; otherwise the dict entry
is assigned and the table saved. -/
def add_replacement (table : List (PyStr × PyStr)) (outcome : DialogOutcome)
    (confirmOverwrite : Bool) : List (PyStr × PyStr) :=
  match dialog_result outcome with
  | none => table
  | some (s, r) =>
    if table.any (fun e => decide (e.1 = s)) && !confirmOverwrite then table
    else dict_set table s r

/-! Helper lemmas about the buffer operations. -/

/-- `buffer_append` is taking the last `max_buffer_length` characters of the
extended buffer. -/
lemma buffer_append_eq (buf : PyStr) (c : Char) :
    buffer_append buf c = (buf ++ [c]).rtake max_buffer_length := by
  simp only [buffer_append, List.rtake]
  by_cases h : (buf ++ [c]).length > max_buffer_length
  · rw [if_pos h]
  · rw [if_neg h]
    have h0 : (buf ++ [c]).length - max_buffer_length = 0 :=
      Nat.sub_eq_zero_of_le (le_of_not_lt h)
    rw [h0, List.drop_zero]

lemma length_rtake_le (l : PyStr) (n : Nat) : (l.rtake n).length ≤ n := by
  simp only [List.rtake, List.length_drop]
  omega

lemma rtake_of_length_le (l : PyStr) (n : Nat) (h : l.length ≤ n) :
    l.rtake n = l := by
  simp [List.rtake, Nat.sub_eq_zero_of_le h]

/-- Retaking the last `n` elements absorbs an earlier truncation to the last
`n` elements. -/
lemma rtake_append_rtake (n : Nat) (l l' : PyStr) :
    (l.rtake n ++ l').rtake n = (l ++ l').rtake n := by
  simp only [List.rtake_eq_reverse_take_reverse, List.reverse_append,
    List.reverse_reverse, List.take_append_eq_append_take, List.take_take,
    List.length_reverse, List.length_take]
  have h : (n - l'.length) ⊓ n = n - l'.length :=
    inf_eq_left.mpr (Nat.sub_le n l'.length)
  rw [h]

/-- Folding `buffer_append` over a character stream yields the last
`max_buffer_length` characters of the concatenation. -/
lemma foldl_buffer_append (cs : List Char) :
    ∀ b : PyStr, b.length ≤ max_buffer_length →
      cs.foldl buffer_append b = (b ++ cs).rtake max_buffer_length := by
  induction cs with
  | nil =>
    intro b hb
    simp [rtake_of_length_le b max_buffer_length hb]
  | cons c cs ih =>
    intro b hb
    rw [List.foldl_cons, ih (buffer_append b c)
      (by rw [buffer_append_eq]; exact length_rtake_le _ _)]
    rw [buffer_append_eq, rtake_append_rtake]
    simp

/-- Decomposition of a successful `check_replacements`: the fired entry splits
the table, its shortcut is a suffix of the buffer, and no earlier entry's
shortcut is. -/
lemma check_replacements_spec (buf : PyStr) (table : List (PyStr × PyStr))
    (e : PyStr × PyStr) (h : check_replacements buf table = some e) :
    ∃ pre post, table = pre ++ e :: post ∧ e.1 <:+ buf ∧
      ∀ x ∈ pre, ¬ x.1 <:+ buf := by
  induction table with
  | nil => simp [check_replacements] at h
  | cons a rest ih =>
    by_cases ha : a.1 <:+ buf
    · rw [check_replacements, if_pos ha] at h
      obtain rfl : a = e := by injection h
      exact ⟨[], rest, rfl, ha, by simp⟩
    · rw [check_replacements, if_neg ha] at h
      obtain ⟨pre, post, heq, hsfx, hpre⟩ := ih h
      refine ⟨a :: pre, post, by rw [heq]; rfl, hsfx, ?_⟩
      intro x hx
      rw [List.mem_cons] at hx
      rcases hx with rfl | hx
      · exact ha
      · exact hpre x hx

/-- A fired entry is a member of the table. -/
lemma check_replacements_mem (buf : PyStr) (table : List (PyStr × PyStr))
    (e : PyStr × PyStr) (h : check_replacements buf table = some e) :
    e ∈ table := by
  obtain ⟨pre, post, heq, -, -⟩ := check_replacements_spec buf table e h
  rw [heq]
  exact List.mem_append_right pre (List.mem_cons_self e post)

lemma send_backspaces_eq_replicate (n : Nat) :
    send_backspaces n = List.replicate n Action.backspacePulse := by
  induction n with
  | zero => rfl
  | succ n ih => rw [send_backspaces, ih, List.replicate_succ]

/-- One `on_press` transition keeps the buffer within capacity. -/
lemma on_press_length_le (clk : Clock) (replacements : List (PyStr × PyStr))
    (buf : PyStr) (k : KeyEvent) (hb : buf.length ≤ max_buffer_length) :
    (on_press clk replacements buf k).1.length ≤ max_buffer_length := by
  cases k with
  | char c =>
    rw [on_press]
    cases h : check_replacements (buffer_append buf c) replacements with
    | some e => simp [perform_replacement]
    | none =>
      simp only []
      rw [buffer_append_eq]
      exact length_rtake_le _ _
  | space => simp [on_press]
  | enter => simp [on_press]
  | tab => simp [on_press]
  | backspace =>
    rw [on_press]
    unfold trim_one
    by_cases h : buf = []
    · simp [h]
    · simp only [if_neg h, List.length_dropLast]
      omega
  | other => exact hb

/-! Claim theorems. -/

/-- C1: `check_replacements` iterates the table in its stable (insertion)
iteration order and fires the first entry whose trigger is a suffix of the
buffer text, firing at most one entry per invocation (the result is a single
optional entry); in particular, with `"ab"` inserted before `"b"` and a buffer
ending in `"ab"`, the entry fired is `"ab"`, not `"b"`. -/
theorem claim_C1_first_match_wins :
    (∀ (buf : PyStr) (table : List (PyStr × PyStr)) (e : PyStr × PyStr),
        check_replacements buf table = some e →
        ∃ pre post, table = pre ++ e :: post ∧ e.1 <:+ buf ∧
          ∀ x ∈ pre, ¬ x.1 <:+ buf) ∧
    check_replacements "xab".data [("ab".data, "X".data), ("b".data, "Y".data)]
      = some ("ab".data, "X".data) := by
  constructor
  · exact fun buf table e h => check_replacements_spec buf table e h
  · decide

/-- C1 witness: the general first-match decomposition applied at the concrete
two-entry table of the claim. -/
theorem claim_C1_first_match_wins_witness :
    ∃ pre post,
      ([("ab".data, "X".data), ("b".data, "Y".data)] : List (PyStr × PyStr))
        = pre ++ ("ab".data, "X".data) :: post ∧
      ("ab".data : PyStr) <:+ "xab".data ∧
      ∀ x ∈ pre, ¬ x.1 <:+ "xab".data :=
  claim_C1_first_match_wins.1 "xab".data
    [("ab".data, "X".data), ("b".data, "Y".data)]
    ("ab".data, "X".data) (by decide)

/-- C2: starting from an empty buffer, after any sequence of key events the
buffer length is at most the capacity 50 (in particular after every
intermediate mutation, each intermediate state being the result of a prefix of
the event sequence); and folding the append operation over 1000 characters
leaves exactly the last 50 of them, in order. -/
theorem claim_C2_buffer_capacity :
    (∀ (clk : Clock) (replacements : List (PyStr × PyStr)) (ks : List KeyEvent),
        (process_events clk replacements [] ks).length ≤ max_buffer_length) ∧
    (∀ cs : List Char, cs.length = 1000 →
        List.foldl buffer_append [] cs = cs.drop 950 ∧
        (List.foldl buffer_append [] cs).length = 50) := by
  constructor
  · intro clk replacements ks
    have main : ∀ (ks : List KeyEvent) (b : PyStr),
        b.length ≤ max_buffer_length →
        (process_events clk replacements b ks).length ≤ max_buffer_length := by
      intro ks
      induction ks with
      | nil => intro b hb; exact hb
      | cons k ks ih =>
        intro b hb
        exact ih _ (on_press_length_le clk replacements b k hb)
    exact main ks [] (by simp [max_buffer_length])
  · intro cs hcs
    have h := foldl_buffer_append cs [] (by simp [max_buffer_length])
    rw [List.nil_append] at h
    have hdrop : List.foldl buffer_append [] cs = cs.drop 950 := by
      rw [h]
      show cs.drop (cs.length - max_buffer_length) = cs.drop 950
      rw [hcs]
      norm_num [max_buffer_length]
    refine ⟨hdrop, ?_⟩
    rw [hdrop, List.length_drop, hcs]

/-- C2 witness: 1000 concrete characters appended one at a time leave the last
50 of them. -/
theorem claim_C2_buffer_capacity_witness :
    List.foldl buffer_append [] (List.replicate 1000 'a')
      = (List.replicate 1000 'a').drop 950 ∧
    (List.foldl buffer_append [] (List.replicate 1000 'a')).length = 50 :=
  claim_C2_buffer_capacity.2 (List.replicate 1000 'a')
    (by rw [List.length_replicate])

/-- C3: on a word-boundary event (space, enter or tab) the dispatcher runs the
match engine against the current buffer, and the buffer is empty afterwards
unconditionally, whether or not a match fired. -/
theorem claim_C3_word_boundary_clears :
    ∀ (clk : Clock) (replacements : List (PyStr × PyStr)) (buf : PyStr),
      on_press clk replacements buf KeyEvent.space
        = ([], check_replacements buf replacements) ∧
      on_press clk replacements buf KeyEvent.enter
        = ([], check_replacements buf replacements) ∧
      on_press clk replacements buf KeyEvent.tab
        = ([], check_replacements buf replacements) :=
  fun _ _ _ => ⟨rfl, rfl, rfl⟩

/-- C4: dynamic entries are recomputed at fire time: for the `"today"` and
`"time"` shortcuts the resolved expansion is taken from the current clock, not
from the stored expansion string, and firing the same `"today"` entry under two
clocks with different dates yields two different emitted action sequences. -/
theorem claim_C4_dynamic_recompute :
    (∀ (clk : Clock) (stored : PyStr),
        resolve_replacement clk "today".data stored = clk.date ∧
        resolve_replacement clk "time".data stored = clk.time) ∧
    (∀ (clk₁ clk₂ : Clock) (s₁ s₂ : PyStr), clk₁.date ≠ clk₂.date →
        (perform_replacement clk₁ none "today".data s₁).2 ≠
          (perform_replacement clk₂ none "today".data s₂).2) := by
  constructor
  · intro clk stored
    constructor
    · simp [resolve_replacement]
    · rw [resolve_replacement, if_neg (by decide), if_pos rfl]
  · intro clk₁ clk₂ s₁ s₂ hdate h
    simp only [perform_replacement, resolve_replacement, if_pos rfl,
      List.append_cancel_left_eq, List.cons.injEq] at h
    exact hdate (Action.insert.inj h.1)

/-- C4 witness: the same `"today"` entry fired on two concrete different dates
inserts two different texts. -/
theorem claim_C4_dynamic_recompute_witness :
    (perform_replacement ⟨"2026-10-12".data, "09:00:00".data⟩ none
        "today".data "cached".data).2 ≠
      (perform_replacement ⟨"2026-10-13".data, "09:00:00".data⟩ none
        "today".data "cached".data).2 :=
  claim_C4_dynamic_recompute.2 ⟨"2026-10-12".data, "09:00:00".data⟩
    ⟨"2026-10-13".data, "09:00:00".data⟩ "cached".data "cached".data (by decide)

/-- C5: an insertion attempt whose trigger strips to the empty string is
rejected — `ok_clicked` shows the "Shortcut cannot be empty." warning and sets
no result — and the shortcut table is left unchanged by `add_replacement`. -/
theorem claim_C5_empty_trigger_rejected :
    ∀ (shortcutField replacementField : PyStr)
      (table : List (PyStr × PyStr)) (confirm : Bool),
      py_strip shortcutField = [] →
      ok_clicked shortcutField replacementField
          = DialogOutcome.warned "Shortcut cannot be empty.".data ∧
      add_replacement table (ok_clicked shortcutField replacementField) confirm
          = table := by
  intro shortcutField replacementField table confirm hstrip
  have hok : ok_clicked shortcutField replacementField
      = DialogOutcome.warned "Shortcut cannot be empty.".data := by
    rw [ok_clicked]
    simp [hstrip]
  exact ⟨hok, by rw [hok]; rfl⟩

/-- C5 witness: a whitespace-only shortcut field is rejected and a concrete
one-entry table is unchanged. -/
theorem claim_C5_empty_trigger_rejected_witness :
    ok_clicked "   ".data "hello".data
        = DialogOutcome.warned "Shortcut cannot be empty.".data ∧
    add_replacement [("wp".data, "Work Perfect".data)]
        (ok_clicked "   ".data "hello".data) true
      = [("wp".data, "Work Perfect".data)] :=
  claim_C5_empty_trigger_rejected "   ".data "hello".data
    [("wp".data, "Work Perfect".data)] true (by decide)

/-- C6 counterexample: the claim quantifies over every table snapshot, but a
snapshot holding a zero-length trigger (reachable through the unvalidated
`json.load` in `load_replacements`, which performs no trigger validation) does
fire: Python's `s.endswith("")` is always `True`, and `check_replacements` has
no special case, so the empty trigger matches the buffer `"x"`. -/
theorem claim_C6_counterexample :
    check_replacements "x".data [([], "boom".data)] = some ([], "boom".data) ∧
    (([], "boom".data) : PyStr × PyStr).1.length = 0 := by
  constructor
  · decide
  · rfl

/-- C6 amended: the dialog insertion path only ever produces non-empty
triggers, and on every table snapshot all of whose triggers are non-empty the
match engine never fires a zero-length trigger (without any special case in
`check_replacements` itself). -/
theorem claim_C6_no_empty_trigger_fires :
    (∀ (shortcutField replacementField : PyStr) (s r : PyStr),
        ok_clicked shortcutField replacementField = DialogOutcome.accepted s r →
        s ≠ []) ∧
    (∀ (buf : PyStr) (table : List (PyStr × PyStr)),
        (∀ x ∈ table, x.1 ≠ []) →
        ∀ e, check_replacements buf table = some e → e.1 ≠ []) := by
  constructor
  · intro shortcutField replacementField s r h
    rw [ok_clicked] at h
    by_cases h1 : py_strip shortcutField = []
    · simp [h1] at h
    · by_cases h2 : py_strip replacementField = []
      · simp [h1, h2] at h
      · simp only [if_neg h1, if_neg h2, DialogOutcome.accepted.injEq] at h
        rw [← h.1]
        exact h1
  · intro buf table htable e h
    exact htable e (check_replacements_mem buf table e h)

/-- C6 amended witness: on a concrete table with the single non-empty trigger
`"ab"`, the entry fired on buffer `"xab"` has a non-empty trigger. -/
theorem claim_C6_no_empty_trigger_fires_witness :
    (("ab".data, "X".data) : PyStr × PyStr).1 ≠ [] :=
  claim_C6_no_empty_trigger_fires.2 "xab".data [("ab".data, "X".data)]
    (by decide) ("ab".data, "X".data) (by decide)

/-- C7: a fired replacement emits exactly `length(trigger)` backspace pulses
before the single insertion of the resolved expansion; in particular the
4-character trigger `"tgif"` causes exactly 4 backspace pulses followed by the
insertion of its stored expansion. -/
theorem claim_C7_backspace_count :
    (∀ (clk : Clock) (shortcut replacement : PyStr),
        (perform_replacement clk none shortcut replacement).2
          = List.replicate shortcut.length Action.backspacePulse
              ++ [Action.insert (resolve_replacement clk shortcut replacement)]) ∧
    (perform_replacement ⟨"2026-10-12".data, "09:00:00".data⟩ none "tgif".data
        ("Thank God It".data ++ '\'' :: "s Friday!".data)).2
      = List.replicate 4 Action.backspacePulse
          ++ [Action.insert ("Thank God It".data ++ '\'' :: "s Friday!".data)] := by
  have hgen : ∀ (clk : Clock) (shortcut replacement : PyStr),
      (perform_replacement clk none shortcut replacement).2
        = List.replicate shortcut.length Action.backspacePulse
            ++ [Action.insert (resolve_replacement clk shortcut replacement)] := by
    intro clk shortcut replacement
    rw [perform_replacement, send_backspaces_eq_replicate]
  refine ⟨hgen, ?_⟩
  rw [hgen]
  rfl

/-- C8: for a buffer below capacity, `append` then `trim_one` restores the
prior buffer content; at capacity the append evicts the front character, and
the round trip yields the buffer minus its first character instead. -/
theorem claim_C8_append_trim_roundtrip :
    (∀ (buf : PyStr) (c : Char), buf.length < max_buffer_length →
        trim_one (buffer_append buf c) = buf) ∧
    (∀ (buf : PyStr) (c : Char), buf.length = max_buffer_length →
        trim_one (buffer_append buf c) = buf.drop 1) := by
  constructor
  · intro buf c hlt
    have happ : buffer_append buf c = buf ++ [c] := by
      rw [buffer_append_eq]
      exact rtake_of_length_le _ _ (by simp; omega)
    rw [happ, trim_one, if_neg (by simp), List.dropLast_concat]
  · intro buf c heq
    have hlen : (buf ++ [c]).length = max_buffer_length + 1 := by simp [heq]
    have happ : buffer_append buf c = buf.drop 1 ++ [c] := by
      rw [buffer_append_eq, List.rtake, hlen, Nat.add_sub_cancel_left,
        List.drop_append_of_le_length (by rw [heq]; exact Nat.one_le_iff_ne_zero.mpr (by decide))]
    rw [happ, trim_one, if_neg (by simp), List.dropLast_concat]

/-- C8 witness: the round trip on a concrete 2-character buffer restores it,
and on a concrete 50-character buffer it yields the buffer minus its first
character. -/
theorem claim_C8_append_trim_roundtrip_witness :
    trim_one (buffer_append "ab".data 'c') = "ab".data ∧
    trim_one (buffer_append (List.replicate 50 'a') 'c')
      = (List.replicate 50 'a').drop 1 := by
  constructor
  · exact claim_C8_append_trim_roundtrip.1 "ab".data 'c' (by decide)
  · exact claim_C8_append_trim_roundtrip.2 (List.replicate 50 'a') 'c'
      (by rw [List.length_replicate, max_buffer_length])

/-- C9: `type_text` captures the prior clipboard content before overwriting the
clipboard with the expansion text (the clipboard writes are, in order, the
expansion text and then the captured prior content), the pasted text is the
expansion text, and after the delayed restore the clipboard holds the prior
content again; a failing restore is swallowed — the call still completes, with
the same pasted text, merely leaving the expansion on the clipboard. -/
theorem claim_C9_clipboard_restore :
    ∀ (text clipboard0 : PyStr),
      (type_text false false text clipboard0).1 = text ∧
      (type_text false false text clipboard0).2.1 = clipboard0 ∧
      (type_text false false text clipboard0).2.2 = [text, clipboard0] ∧
      (type_text false true text clipboard0).1 = text ∧
      (type_text false true text clipboard0).2.2 = [text] :=
  fun _ _ => ⟨rfl, rfl, rfl, rfl, rfl⟩

/-- C10: `perform_replacement` returns with an empty input buffer on every
path — the buffer is cleared before any platform action, the surrounding
`try/except` swallows injection errors, and no error path rolls the buffer
back, for any point `failAt` at which the injection may raise. -/
theorem claim_C10_buffer_empty_after_replacement :
    ∀ (clk : Clock) (failAt : Option Nat) (shortcut replacement : PyStr),
      (perform_replacement clk failAt shortcut replacement).1 = [] := by
  intro clk failAt shortcut replacement
  cases failAt with
  | none => rfl
  | some k => rfl
